import Mathlib

/-!
Shallow embedding of the SFL-Studio workflow graph engine
(`src/components/WorkflowEngine.tsx` and the data model of `src/types.ts`).

Numbers that are JavaScript `number`s (positions, viewport pan/zoom, wheel
deltas) are modelled as exact rationals `ℚ`; timestamps (`Date.now()`) as `Nat`.
TypeScript optional fields become `Option`; `Array.find` becomes `List.find?`.
-/

namespace SFLStudio

/-- `TaskType` enum of `src/types.ts`. -/
inductive TaskType where
  | INPUT
  | GENERATION
  | TRANSFORMATION
  | ANALYSIS
  | HUMAN_REVIEW
deriving DecidableEq, Repr

/-- The string value carried by each `TaskType` enum member in `src/types.ts`. -/
def TaskType.str : TaskType → String
  | .INPUT => "INPUT"
  | .GENERATION => "GENERATION"
  | .TRANSFORMATION => "TRANSFORMATION"
  | .ANALYSIS => "ANALYSIS"
  | .HUMAN_REVIEW => "HUMAN_REVIEW"

/-- A 2D point (`position: { x, y }` in `src/types.ts`). -/
structure Point where
  x : ℚ
  y : ℚ
deriving DecidableEq, Repr

/-- The `config` record of `WorkflowTask` (`src/types.ts`); every field is
optional there, so each is an `Option` here. -/
structure TaskConfig where
  promptId : Option String := none
  code : Option String := none
  targetKey : Option String := none
  inputType : Option String := none
  inputValue : Option String := none
  fileName : Option String := none
  fileType : Option String := none
deriving DecidableEq, Repr

/-- `WorkflowTask` of `src/types.ts`. -/
structure WorkflowTask where
  id : String
  type : TaskType
  name : String
  description : Option String := none
  config : TaskConfig
  position : Point
  dependencies : List String
deriving DecidableEq, Repr

/-- The `status` values of `WorkflowExecutionLog` in `src/types.ts`. -/
inductive LogStatus where
  | PENDING
  | RUNNING
  | COMPLETED
  | FAILED
deriving DecidableEq, Repr

/-- `WorkflowExecutionLog` of `src/types.ts`; `output: any` is modelled as an
optional string, which is all the engine ever inspects. -/
structure WorkflowExecutionLog where
  taskId : String
  status : LogStatus
  output : Option String := none
  error : Option String := none
  timestamp : Nat
deriving DecidableEq, Repr

/-- The workflow-level `status` values of `src/types.ts`. -/
inductive WorkflowStatus where
  | IDLE
  | RUNNING
  | COMPLETED
  | FAILED
deriving DecidableEq, Repr

/-- `Workflow` of `src/types.ts`; `lastRun?: number` becomes `Option Nat`. -/
structure Workflow where
  id : String
  name : String
  tasks : List WorkflowTask
  lastRun : Option Nat := none
  status : WorkflowStatus
  logs : List WorkflowExecutionLog
deriving DecidableEq, Repr

/-- Viewport state `{ x, y, zoom }` of `WorkflowEngine.tsx` line 24. -/
structure Viewport where
  x : ℚ
  y : ℚ
  zoom : ℚ
deriving DecidableEq, Repr

/-! ## Operations of `WorkflowEngine.tsx` -/

/-- `getCanvasCoordinates` (`WorkflowEngine.tsx` lines 48-55), on the main path
where the container ref is set: the mouse event's client coordinates minus the
container rect's top-left corner, minus the pan offset, divided by the zoom. -/
def getCanvasCoordinates (viewport : Viewport) (clientX clientY rectLeft rectTop : ℚ) :
    Point :=
  { x := (clientX - rectLeft - viewport.x) / viewport.zoom
    y := (clientY - rectTop - viewport.y) / viewport.zoom }

/-- The new-task centre computation of `handleAddTask` (lines 66-74): defaults
`(100, 100)` when the container ref is unset, otherwise centred in the visible
viewport, offset by half the node size (96, 40). -/
def addTaskCenter (containerRect : Option (ℚ × ℚ)) (viewport : Viewport) : Point :=
  match containerRect with
  | none => { x := 100, y := 100 }
  | some (width, height) =>
    { x := (-viewport.x + width / 2) / viewport.zoom - 96
      y := (-viewport.y + height / 2) / viewport.zoom - 40 }

/-- The task record built by `handleAddTask` (lines 76-91): id is
`task-` followed by `Date.now()`, the name is derived from the type, the
config holds a fresh `targetKey` and `inputType: 'text'`, and when a task is
selected the new task depends on it. -/
def newTask (w : Workflow) (ty : TaskType) (now : Nat)
    (selectedTaskId : Option String) (center : Point) : WorkflowTask :=
  { id := "task-" ++ toString now
    type := ty
    name := if ty = TaskType.INPUT then "Input Source"
            else "New " ++ (ty.str.toLower.replace "_" " ")
    config := { targetKey := some ("output_" ++ toString (w.tasks.length + 1))
                inputType := some "text" }
    position := center
    dependencies := match selectedTaskId with
                    | some sid => [sid]
                    | none => [] }

/-- `handleAddTask` (lines 64-96): appends the new task; never fails. -/
def handleAddTask (w : Workflow) (ty : TaskType) (now : Nat)
    (selectedTaskId : Option String) (containerRect : Option (ℚ × ℚ))
    (viewport : Viewport) : Workflow :=
  { w with tasks := w.tasks ++ [newTask w ty now selectedTaskId
                                  (addTaskCenter containerRect viewport)] }

/-- `handleDeleteTask` (lines 98-108): drops the task with the given id and
filters that id out of every remaining task's `dependencies`. -/
def handleDeleteTask (w : Workflow) (id : String) : Workflow :=
  { w with tasks := (w.tasks.filter (fun t => t.id ≠ id)).map (fun t =>
      { t with dependencies := t.dependencies.filter (fun d => d ≠ id) }) }

/-- The position-only instance of `handleUpdateTask` (lines 110-121): every
task whose id matches gets the given position; others are untouched. -/
def updateTaskPosition (w : Workflow) (taskId : String) (p : Point) : Workflow :=
  { w with tasks := w.tasks.map (fun t =>
      if t.id = taskId then { t with position := p } else t) }

/-- `handleConnect` (lines 156-171): rejects self-loops, missing targets and
duplicate edges by returning the workflow unchanged; otherwise appends
`sourceId` to the target task's `dependencies`. There is no cycle check (the
source comment at line 165 says it was omitted). -/
def handleConnect (w : Workflow) (sourceId targetId : String) : Workflow :=
  if sourceId = targetId then w
  else
    match w.tasks.find? (fun t => t.id = targetId) with
    | none => w
    | some targetTask =>
      if sourceId ∈ targetTask.dependencies then w
      else { w with tasks := w.tasks.map (fun t =>
          if t.id = targetId then
            { t with dependencies := t.dependencies ++ [sourceId] }
          else t) }

/-- `handleDisconnect` (lines 173-178): filters `sourceId` out of the target
task's `dependencies`. -/
def handleDisconnect (w : Workflow) (sourceId targetId : String) : Workflow :=
  { w with tasks := w.tasks.map (fun t =>
      if t.id = targetId then
        { t with dependencies := t.dependencies.filter (fun d => d ≠ sourceId) }
      else t) }

/-- `handleWheel` (lines 182-193): zoom moves by `-deltaY * 0.001`, clamped to
`[0.1, 3]`; the pan offset is spread unchanged into the new viewport. -/
def handleWheel (viewport : Viewport) (deltaY : ℚ) : Viewport :=
  let sensitivity : ℚ := 1 / 1000
  let delta := -deltaY * sensitivity
  let newZoom := min (max (viewport.zoom + delta) (1 / 10)) 3
  { viewport with zoom := newZoom }

/-- The node-drag branch of `handleMouseMove` (lines 217-225): the screen
movement delta is divided by the zoom and added to the dragged task's
position (via `handleUpdateTask` with a position-only update). -/
def handleMouseMoveDrag (w : Workflow) (draggingTaskId : String)
    (zoom movementX movementY : ℚ) : Workflow :=
  let dx := movementX / zoom
  let dy := movementY / zoom
  match w.tasks.find? (fun t => t.id = draggingTaskId) with
  | none => w
  | some task =>
    updateTaskPosition w draggingTaskId
      { x := task.position.x + dx, y := task.position.y + dy }

/-- `getTaskStatus` (lines 251-254): the first log entry whose `taskId`
matches and whose `timestamp` equals `lastRun`, defaulting to PENDING. The
source's `log?.status || 'PENDING'` only falls through when no entry is
found, since every status string is non-empty, hence truthy. -/
def getTaskStatus (w : Workflow) (id : String) : LogStatus :=
  match w.logs.find? (fun l => l.taskId = id ∧ w.lastRun = some l.timestamp) with
  | some log => log.status
  | none => LogStatus.PENDING

/-! ## Spec-side reference definitions

These two definitions follow the spec's words, to be compared with the
source-derived functions above. -/

/-- The spec's coordinate-transform formula: given a screen point `(sx, sy)`
relative to the canvas container's top-left and viewport `(vx, vy, vz)`, the
canvas-space point is `((sx - vx) / vz, (sy - vy) / vz)`. -/
def specCanvasPoint (sx sy vx vy vz : ℚ) : Point :=
  { x := (sx - vx) / vz, y := (sy - vy) / vz }

/-- The spec's task-status rule: the status of the MOST RECENT (last) log
entry whose `taskId` matches and whose `timestamp` equals the workflow's
`lastRun` stamp, if any. -/
def specMostRecentRunStatus (w : Workflow) (id : String) : Option LogStatus :=
  ((w.logs.filter (fun l => l.taskId = id ∧ w.lastRun = some l.timestamp)).getLast?).map
    (fun l => l.status)

/-! ## Concrete example data used to instantiate the theorems -/

/-- A minimal task record with the given id and dependency list. -/
def egTask (id : String) (deps : List String) : WorkflowTask :=
  { id := id
    type := TaskType.GENERATION
    name := "T"
    config := {}
    position := { x := 0, y := 0 }
    dependencies := deps }

/-- A minimal idle workflow with the given tasks and no logs. -/
def egWorkflow (tasks : List WorkflowTask) : Workflow :=
  { id := "w"
    name := "W"
    tasks := tasks
    status := WorkflowStatus.IDLE
    logs := [] }

/-- A minimal log entry. -/
def egLog (tid : String) (st : LogStatus) (ts : Nat) : WorkflowExecutionLog :=
  { taskId := tid, status := st, timestamp := ts }

/-- A workflow that has run: carries a `lastRun` stamp and a log. -/
def egRunWorkflow (tasks : List WorkflowTask) (lastRun : Option Nat)
    (logs : List WorkflowExecutionLog) : Workflow :=
  { id := "w"
    name := "W"
    tasks := tasks
    lastRun := lastRun
    status := WorkflowStatus.COMPLETED
    logs := logs }

/-- A ran workflow whose single task has two log entries in its current run:
a RUNNING entry appended first, then a COMPLETED entry. -/
def egRunCounter : Workflow :=
  egRunWorkflow [egTask "t1" []] (some 5)
    [egLog "t1" LogStatus.RUNNING 5, egLog "t1" LogStatus.COMPLETED 5]

/-- A ran workflow whose logs open with an entry for another task, followed by
two entries for task `t1` in the current run. -/
def egRunFirst : Workflow :=
  egRunWorkflow [egTask "t1" []] (some 5)
    [egLog "t0" LogStatus.COMPLETED 5, egLog "t1" LogStatus.RUNNING 5,
      egLog "t1" LogStatus.COMPLETED 5]

/-! ## Helper lemmas -/

/-- When the keys of `l` under `f` are distinct, `find?` on the key predicate
returns exactly the member carrying that key. -/
lemma find?_eq_some_of_key {α β : Type} [DecidableEq β] (f : α → β) (k : β)
    {l : List α} (hn : (l.map f).Nodup) {a : α} (ha : a ∈ l) (hk : f a = k) :
    l.find? (fun x => f x = k) = some a := by
  induction l with
  | nil => cases ha
  | cons b l ih =>
    rw [List.map_cons, List.nodup_cons] at hn
    by_cases hb : f b = k
    · have hab : a = b := by
        rcases List.mem_cons.mp ha with h | h
        · exact h
        · exact absurd (by rw [hb, ← hk]; exact List.mem_map_of_mem f h) hn.1
      subst hab
      exact List.find?_cons_of_pos _ (by simpa using hb)
    · rw [List.find?_cons_of_neg _ (by simpa using hb)]
      have ha' : a ∈ l := by
        rcases List.mem_cons.mp ha with h | h
        · exact absurd (h ▸ hk) hb
        · exact h
      exact ih hn.2 ha'

/-- `find?` over a split list whose first matching element is `e`. -/
lemma find?_append_of_first {α : Type} (p : α → Bool) (pre : List α) (e : α)
    (post : List α) (hpre : ∀ l ∈ pre, p l = false) (he : p e = true) :
    (pre ++ e :: post).find? p = some e := by
  induction pre with
  | nil => simpa using List.find?_cons_of_pos post he
  | cons a pre ih =>
    rw [List.cons_append,
      List.find?_cons_of_neg _ (by simp [hpre a (List.mem_cons_self a pre)])]
    exact ih (fun l hl => hpre l (List.mem_cons_of_mem a hl))

/-- Specialisation of `find?_eq_some_of_key` to task lists keyed by id. -/
lemma find?_task_eq (l : List WorkflowTask) (k : String)
    (hn : (l.map (fun t => t.id)).Nodup) {t : WorkflowTask} (ht : t ∈ l)
    (hk : t.id = k) : l.find? (fun u => u.id = k) = some t :=
  find?_eq_some_of_key (fun t => t.id) k hn ht hk

/-! ## Claim theorems -/

/-- C3: after `handleDeleteTask id`, no remaining task's `dependencies`
contains `id` (referential integrity, no dangling dependency ids). -/
theorem removeTask_no_dangling (w : Workflow) (id : String) :
    ∀ t ∈ (handleDeleteTask w id).tasks, id ∉ t.dependencies := by
  intro t ht hmem
  simp only [handleDeleteTask, List.mem_map] at ht
  obtain ⟨u, _, rfl⟩ := ht
  have h2 := (List.mem_filter.mp hmem).2
  simp at h2

/-- C3 witness: deleting task `t2` from a concrete three-task workflow leaves
no task depending on `t2`. -/
theorem removeTask_no_dangling_witness :
    egTask "t3" (List.filter (fun d => d ≠ "t2") ["t2", "t1"]) ∈
      (handleDeleteTask
        (egWorkflow [egTask "t1" [], egTask "t2" ["t1"], egTask "t3" ["t2", "t1"]])
        "t2").tasks ∧
    "t2" ∉ (egTask "t3" (List.filter (fun d => d ≠ "t2") ["t2", "t1"])).dependencies := by
  refine ⟨by decide, ?_⟩
  exact removeTask_no_dangling
    (egWorkflow [egTask "t1" [], egTask "t2" ["t1"], egTask "t3" ["t2", "t1"]]) "t2"
    _ (by decide)

/-- C9: when no task with the target id lists the source id among its
dependencies, `handleDisconnect` is a no-op: the workflow (hence every task's
id, type, name, config, position and dependencies) is unchanged. -/
theorem disconnect_missing_edge_noop (w : Workflow) (sourceId targetId : String)
    (h : ∀ t ∈ w.tasks, t.id = targetId → sourceId ∉ t.dependencies) :
    handleDisconnect w sourceId targetId = w := by
  unfold handleDisconnect
  have hpt : ∀ t ∈ w.tasks,
      (if t.id = targetId then
        { t with dependencies := t.dependencies.filter (fun d => d ≠ sourceId) }
      else t) = t := by
    intro t ht
    by_cases hid : t.id = targetId
    · rw [if_pos hid]
      have hfil : t.dependencies.filter (fun d => d ≠ sourceId) = t.dependencies :=
        List.filter_eq_self.mpr (fun d hd => by
          simp only [decide_eq_true_eq, ne_eq]
          intro hds
          exact h t ht hid (hds ▸ hd))
      rw [hfil]
    · rw [if_neg hid]
  rw [List.map_congr_left hpt, List.map_id']

/-- C9 witness: disconnecting the absent edge `t1 → t2` in a concrete
workflow leaves it unchanged. -/
theorem disconnect_missing_edge_noop_witness :
    (∀ t ∈ (egWorkflow [egTask "t1" [], egTask "t2" ["t3"]]).tasks,
      t.id = "t2" → "t1" ∉ t.dependencies) ∧
    handleDisconnect (egWorkflow [egTask "t1" [], egTask "t2" ["t3"]]) "t1" "t2" =
      egWorkflow [egTask "t1" [], egTask "t2" ["t3"]] := by
  refine ⟨by decide, ?_⟩
  exact disconnect_missing_edge_noop
    (egWorkflow [egTask "t1" [], egTask "t2" ["t3"]]) "t1" "t2" (by decide)

/-- C10: when no log entry has the given `taskId` and a `timestamp` equal to
the workflow's `lastRun` stamp (in particular when `lastRun` is absent),
`getTaskStatus` returns PENDING. -/
theorem getTaskStatus_defaults_pending (w : Workflow) (id : String)
    (h : ∀ l ∈ w.logs, ¬(l.taskId = id ∧ w.lastRun = some l.timestamp)) :
    getTaskStatus w id = LogStatus.PENDING := by
  unfold getTaskStatus
  have hfind : w.logs.find?
      (fun l => l.taskId = id ∧ w.lastRun = some l.timestamp) = none :=
    List.find?_eq_none.mpr (fun l hl => by simpa using h l hl)
  rw [hfind]

/-- C10 witness: a workflow that has never run (`lastRun` absent) reports
PENDING even with a COMPLETED entry in its logs. -/
theorem getTaskStatus_defaults_pending_witness :
    (∀ l ∈ (egRunWorkflow [egTask "t1" []] none [egLog "t1" LogStatus.COMPLETED 5]).logs,
      ¬(l.taskId = "t1" ∧
        (egRunWorkflow [egTask "t1" []] none [egLog "t1" LogStatus.COMPLETED 5]).lastRun =
          some l.timestamp)) ∧
    getTaskStatus (egRunWorkflow [egTask "t1" []] none [egLog "t1" LogStatus.COMPLETED 5])
      "t1" = LogStatus.PENDING := by
  refine ⟨by decide, ?_⟩
  exact getTaskStatus_defaults_pending
    (egRunWorkflow [egTask "t1" []] none [egLog "t1" LogStatus.COMPLETED 5]) "t1"
    (by decide)

/-- C8: from any zoom within `[0.1, 3]`, a wheel event of any delta leaves the
zoom within `[0.1, 3]` and does not change the pan offset `(x, y)`. -/
theorem wheel_zoom_clamped (v : Viewport) (deltaY : ℚ)
    (h1 : 1 / 10 ≤ v.zoom) (h2 : v.zoom ≤ 3) :
    1 / 10 ≤ (handleWheel v deltaY).zoom ∧ (handleWheel v deltaY).zoom ≤ 3 ∧
    (handleWheel v deltaY).x = v.x ∧ (handleWheel v deltaY).y = v.y := by
  refine ⟨?_, ?_, rfl, rfl⟩
  · exact le_min (le_max_right _ _) (by norm_num)
  · exact min_le_right _ _

/-- C8 witness: a large downward wheel delta from zoom 1 lands at zoom 0.5,
inside the clamp range, with the pan offset untouched. -/
theorem wheel_zoom_clamped_witness :
    (1 / 10 ≤ (Viewport.mk 5 7 1).zoom) ∧ ((Viewport.mk 5 7 1).zoom ≤ 3) ∧
    (1 / 10 ≤ (handleWheel (Viewport.mk 5 7 1) 500).zoom ∧
      (handleWheel (Viewport.mk 5 7 1) 500).zoom ≤ 3 ∧
      (handleWheel (Viewport.mk 5 7 1) 500).x = (Viewport.mk 5 7 1).x ∧
      (handleWheel (Viewport.mk 5 7 1) 500).y = (Viewport.mk 5 7 1).y) := by
  refine ⟨by norm_num, by norm_num, ?_⟩
  exact wheel_zoom_clamped (Viewport.mk 5 7 1) 500 (by norm_num) (by norm_num)

/-- C5: for a screen point `(sx, sy)` relative to the container's top-left
(i.e. client coordinates minus the container rect's corner) and a viewport
with nonzero zoom, `getCanvasCoordinates` returns exactly the spec's
`((sx - vx) / vz, (sy - vy) / vz)`. -/
theorem getCanvasCoordinates_matches_spec (v : Viewport)
    (clientX clientY rectLeft rectTop sx sy : ℚ) (hvz : v.zoom ≠ 0)
    (hsx : sx = clientX - rectLeft) (hsy : sy = clientY - rectTop) :
    getCanvasCoordinates v clientX clientY rectLeft rectTop =
      specCanvasPoint sx sy v.x v.y v.zoom := by
  subst hsx hsy
  rfl

/-- C5 witness: the conversion at a concrete viewport and screen point. -/
theorem getCanvasCoordinates_matches_spec_witness :
    ((Viewport.mk 3 4 2).zoom ≠ 0) ∧ ((9 : ℚ) = 10 - 1) ∧ ((18 : ℚ) = 20 - 2) ∧
    getCanvasCoordinates (Viewport.mk 3 4 2) 10 20 1 2 =
      specCanvasPoint 9 18 (Viewport.mk 3 4 2).x (Viewport.mk 3 4 2).y
        (Viewport.mk 3 4 2).zoom := by
  refine ⟨by norm_num, by norm_num, by norm_num, ?_⟩
  exact getCanvasCoordinates_matches_spec (Viewport.mk 3 4 2) 10 20 1 2 9 18
    (by norm_num) (by norm_num) (by norm_num)

/-- C1 evaluated at its failing input: `handleConnect` never checks for
cycles, so on a two-task workflow `connect(a,b)` succeeds (task `b` gains
dependency `a`) and the subsequent `connect(b,a)` ALSO succeeds (task `a`
gains dependency `b`), leaving the cyclic dependency lists
`[["b"], ["a"]]`. The claim requires the second call to be rejected. -/
theorem connect_accepts_cycle :
    ((handleConnect (handleConnect
        (egWorkflow [egTask "a" [], egTask "b" []]) "a" "b") "b" "a").tasks.map
      (fun t => t.dependencies)) = [["b"], ["a"]] := by decide

/-- C7 evaluated at its failing input: `handleAddTask` builds the new id as
`task-` + `Date.now()`, so adding a task at time 5 to a workflow that already
holds a task with id `task-5` (e.g. one added in the same millisecond)
produces two tasks with the same id, violating the fresh-unique-id claim. -/
theorem addTask_id_collision :
    ((handleAddTask (egWorkflow [egTask "task-5" []]) TaskType.GENERATION 5 none
        none (Viewport.mk 0 0 1)).tasks.map (fun t => t.id)) =
      ["task-5", "task-5"] := by decide

/-- C2 counterexample: on a workflow whose current run logged RUNNING and then
COMPLETED for task `t1` (same `lastRun` timestamp), `getTaskStatus` reports
the FIRST matching entry (RUNNING), not the most recent one (COMPLETED). -/
theorem getTaskStatus_first_not_latest :
    getTaskStatus egRunCounter "t1" = LogStatus.RUNNING ∧
    specMostRecentRunStatus egRunCounter "t1" = some LogStatus.COMPLETED ∧
    LogStatus.RUNNING ≠ LogStatus.COMPLETED := by decide

/-- C2 amended: the task's reported status is the status of the FIRST log
entry whose `taskId` matches and whose `timestamp` equals the workflow's
`lastRun` stamp (the source scans the log from the front with `find`). -/
theorem getTaskStatus_eq_first_matching (w : Workflow) (id : String)
    (pre post : List WorkflowExecutionLog) (e : WorkflowExecutionLog)
    (hsplit : w.logs = pre ++ e :: post)
    (hpre : ∀ l ∈ pre, ¬(l.taskId = id ∧ w.lastRun = some l.timestamp))
    (he : e.taskId = id ∧ w.lastRun = some e.timestamp) :
    getTaskStatus w id = e.status := by
  unfold getTaskStatus
  rw [hsplit, find?_append_of_first _ pre e post
    (fun l hl => by simpa using hpre l hl) (by simpa using he)]

/-- C2 amended witness: on the concrete three-entry log, the reported status
is that of the first entry matching task `t1` and the run stamp. -/
theorem getTaskStatus_eq_first_matching_witness :
    (egRunFirst.logs = [egLog "t0" LogStatus.COMPLETED 5] ++
      egLog "t1" LogStatus.RUNNING 5 :: [egLog "t1" LogStatus.COMPLETED 5]) ∧
    (∀ l ∈ [egLog "t0" LogStatus.COMPLETED 5],
      ¬(l.taskId = "t1" ∧ egRunFirst.lastRun = some l.timestamp)) ∧
    ((egLog "t1" LogStatus.RUNNING 5).taskId = "t1" ∧
      egRunFirst.lastRun = some (egLog "t1" LogStatus.RUNNING 5).timestamp) ∧
    getTaskStatus egRunFirst "t1" = (egLog "t1" LogStatus.RUNNING 5).status := by
  refine ⟨by decide, by decide, by decide, ?_⟩
  exact getTaskStatus_eq_first_matching egRunFirst "t1"
    [egLog "t0" LogStatus.COMPLETED 5] [egLog "t1" LogStatus.COMPLETED 5]
    (egLog "t1" LogStatus.RUNNING 5) (by decide) (by decide) (by decide)

/-- Under distinct task ids, a node-drag move rewrites exactly the dragged
task's position by the screen delta divided by the zoom. -/
lemma drag_tasks_eq_map (w : Workflow) (dragId : String) (z mx my : ℚ)
    (hnodup : (w.tasks.map (fun t => t.id)).Nodup)
    (t : WorkflowTask) (ht : t ∈ w.tasks) (hid : t.id = dragId) :
    (handleMouseMoveDrag w dragId z mx my).tasks =
      w.tasks.map (fun u => if u.id = dragId then
        { u with position := { x := u.position.x + mx / z, y := u.position.y + my / z } }
      else u) := by
  simp only [handleMouseMoveDrag, find?_task_eq w.tasks dragId hnodup ht hid,
    updateTaskPosition]
  apply List.map_congr_left
  intro u hu
  by_cases h : u.id = dragId
  · have hut : u = t := List.inj_on_of_nodup_map hnodup hu ht (by rw [h, hid])
    subst hut
    simp [h]
  · simp [h]

/-- C4: when the dragged id names a task (and ids are distinct, as the engine
intends), a pointer move of screen delta `(mx, my)` at zoom `z` adds exactly
`(mx / z, my / z)` to the dragged task's model position, leaves every other
task untouched, and at `z = 1` adds exactly `(mx, my)`. -/
theorem drag_moves_position_by_delta_div_zoom (w : Workflow) (dragId : String)
    (z mx my : ℚ) (hnodup : (w.tasks.map (fun t => t.id)).Nodup)
    (t : WorkflowTask) (ht : t ∈ w.tasks) (hid : t.id = dragId) :
    ((handleMouseMoveDrag w dragId z mx my).tasks =
      w.tasks.map (fun u => if u.id = dragId then
        { u with position := { x := u.position.x + mx / z, y := u.position.y + my / z } }
      else u)) ∧
    ((handleMouseMoveDrag w dragId 1 mx my).tasks =
      w.tasks.map (fun u => if u.id = dragId then
        { u with position := { x := u.position.x + mx, y := u.position.y + my } }
      else u)) := by
  refine ⟨drag_tasks_eq_map w dragId z mx my hnodup t ht hid, ?_⟩
  rw [drag_tasks_eq_map w dragId 1 mx my hnodup t ht hid]
  apply List.map_congr_left
  intro u _
  by_cases h : u.id = dragId
  · simp [h]
  · simp [h]

/-- C4 witness: dragging task `t1` of a concrete two-task workflow by screen
delta `(6, 8)` at zoom 2. -/
theorem drag_moves_position_by_delta_div_zoom_witness :
    ((egWorkflow [egTask "t1" [], egTask "t2" []]).tasks.map
      (fun t => t.id)).Nodup ∧
    egTask "t1" [] ∈ (egWorkflow [egTask "t1" [], egTask "t2" []]).tasks ∧
    (egTask "t1" []).id = "t1" ∧
    (((handleMouseMoveDrag (egWorkflow [egTask "t1" [], egTask "t2" []]) "t1" 2 6 8).tasks =
      (egWorkflow [egTask "t1" [], egTask "t2" []]).tasks.map
        (fun u => if u.id = "t1" then
          { u with position := { x := u.position.x + 6 / 2, y := u.position.y + 8 / 2 } }
        else u)) ∧
    ((handleMouseMoveDrag (egWorkflow [egTask "t1" [], egTask "t2" []]) "t1" 1 6 8).tasks =
      (egWorkflow [egTask "t1" [], egTask "t2" []]).tasks.map
        (fun u => if u.id = "t1" then
          { u with position := { x := u.position.x + 6, y := u.position.y + 8 } }
        else u))) := by
  refine ⟨by decide, by decide, by decide, ?_⟩
  exact drag_moves_position_by_delta_div_zoom
    (egWorkflow [egTask "t1" [], egTask "t2" []]) "t1" 2 6 8 (by decide)
    (egTask "t1" []) (by decide) (by decide)

/-- C6: connecting an already-connected pair is a silent no-op: with distinct
task ids, source and target both present, set-like dependency lists and
`s ≠ tgt`, after `connect(s,tgt)` twice the target task's dependencies hold
`s` exactly once. -/
theorem connect_duplicate_noop (w : Workflow) (s tgt : String)
    (hnodup : (w.tasks.map (fun t => t.id)).Nodup)
    (ts : WorkflowTask) (hts : ts ∈ w.tasks) (htsid : ts.id = s)
    (t : WorkflowTask) (ht : t ∈ w.tasks) (htid : t.id = tgt)
    (hdep : t.dependencies.Nodup) (hne : s ≠ tgt) :
    ∀ u ∈ (handleConnect (handleConnect w s tgt) s tgt).tasks, u.id = tgt →
      u.dependencies.count s = 1 := by
  by_cases hmem : s ∈ t.dependencies
  · have h1 : handleConnect w s tgt = w := by
      simp only [handleConnect, if_neg hne, find?_task_eq w.tasks tgt hnodup ht htid,
        if_pos hmem]
    rw [h1, h1]
    intro u hu huid
    have hut : u = t := List.inj_on_of_nodup_map hnodup hu ht (by rw [huid, htid])
    subst hut
    exact List.count_eq_one_of_mem hdep hmem
  · have h1 : handleConnect w s tgt = { w with tasks := w.tasks.map (fun u =>
        if u.id = tgt then { u with dependencies := u.dependencies ++ [s] } else u) } := by
      simp only [handleConnect, if_neg hne, find?_task_eq w.tasks tgt hnodup ht htid,
        if_neg hmem]
    have hids : ((w.tasks.map (fun u => if u.id = tgt then
        { u with dependencies := u.dependencies ++ [s] } else u)).map (fun t => t.id)) =
        w.tasks.map (fun t => t.id) := by
      rw [List.map_map]
      apply List.map_congr_left
      intro u _
      by_cases h : u.id = tgt <;> simp [Function.comp, h]
    have hnodup2 : ((w.tasks.map (fun u => if u.id = tgt then
        { u with dependencies := u.dependencies ++ [s] } else u)).map
        (fun t => t.id)).Nodup := by rw [hids]; exact hnodup
    have htf : (if t.id = tgt then
        { t with dependencies := t.dependencies ++ [s] } else t) ∈
        w.tasks.map (fun u => if u.id = tgt then
          { u with dependencies := u.dependencies ++ [s] } else u) :=
      List.mem_map_of_mem _ ht
    rw [if_pos htid] at htf
    have hmem2 : s ∈ ({ t with dependencies := t.dependencies ++ [s] } :
        WorkflowTask).dependencies := by simp
    have hfid : ({ t with dependencies := t.dependencies ++ [s] } :
        WorkflowTask).id = tgt := htid
    have h2 : handleConnect { w with tasks := w.tasks.map (fun u =>
        if u.id = tgt then { u with dependencies := u.dependencies ++ [s] } else u) }
        s tgt = { w with tasks := w.tasks.map (fun u =>
        if u.id = tgt then { u with dependencies := u.dependencies ++ [s] } else u) } := by
      simp only [handleConnect, if_neg hne, find?_task_eq _ tgt hnodup2 htf hfid,
        if_pos hmem2]
    rw [h1, h2]
    intro u hu huid
    have hut : u = { t with dependencies := t.dependencies ++ [s] } :=
      List.inj_on_of_nodup_map hnodup2 hu htf (by rw [huid, hfid])
    subst hut
    have h0 : t.dependencies.count s = 0 := List.count_eq_zero.mpr hmem
    simp [List.count_append, h0]

/-- C6 witness: connecting `t1 → t2` twice on a concrete workflow leaves `t1`
exactly once in task `t2`'s dependencies. -/
theorem connect_duplicate_noop_witness :
    ((egWorkflow [egTask "t1" [], egTask "t2" []]).tasks.map
      (fun t => t.id)).Nodup ∧
    egTask "t1" [] ∈ (egWorkflow [egTask "t1" [], egTask "t2" []]).tasks ∧
    egTask "t2" [] ∈ (egWorkflow [egTask "t1" [], egTask "t2" []]).tasks ∧
    (egTask "t2" []).dependencies.Nodup ∧ "t1" ≠ "t2" ∧
    (∀ u ∈ (handleConnect (handleConnect
        (egWorkflow [egTask "t1" [], egTask "t2" []]) "t1" "t2") "t1" "t2").tasks,
      u.id = "t2" → u.dependencies.count "t1" = 1) := by
  refine ⟨by decide, by decide, by decide, by decide, by decide, ?_⟩
  exact connect_duplicate_noop (egWorkflow [egTask "t1" [], egTask "t2" []])
    "t1" "t2" (by decide) (egTask "t1" []) (by decide) (by decide)
    (egTask "t2" []) (by decide) (by decide) (by decide) (by decide)

end SFLStudio
